import Mathlib

/-!
Shallow embedding of the URL-shortener bot (src/main.py): the JSON record
store (`JSONStorage`), the multi-provider shortening orchestrator
(`GuaranteedShortener`), and the backup assembler (`BackupManager`).
Network adapters and clocks are modelled as injected environments; the
in-memory `urls` dict (keyed by the record field `_id`) is modelled as a
list of records with that field as key.
-/

/-- One entry of the `urls` JSON store: the `url_data` dict built in
`GuaranteedShortener.shorten_url` / `_create_ultimate_fallback`.  The
Python dict key `_id` is the `rid` field here. -/
structure UrlRecord where
  rid : String
  user_id : Int
  original_url : String
  short_url : String
  service_used : String
  click_count : Nat
  created_at : String
  last_clicked : Option String
  user_name : String
deriving Repr, DecidableEq

/-- The in-memory `storage.urls` dict, keyed by the record's `rid` field. -/
abbrev UrlStore := List UrlRecord

/-- Python `str.startswith(p)` on the character sequence. -/
def starts_with (s p : String) : Bool :=
  p.data.isPrefixOf s.data

/-- Python `str.endswith(p)` on the character sequence. -/
def ends_with (s p : String) : Bool :=
  p.data.reverse.isPrefixOf s.data.reverse

/-- `JSONStorage._save_json` before its `except` clause: writing the file
either succeeds or raises, depending on disk availability. -/
def save_json_raw (diskOk : Bool) : Except String Unit :=
  if diskOk then Except.ok () else Except.error "disk unavailable"

/-- `JSONStorage._save_json`: any exception from the write is caught and
logged; the method reports success as a Bool that every caller ignores. -/
def save_json (diskOk : Bool) : Bool :=
  match save_json_raw diskOk with
  | Except.ok _ => true
  | Except.error _ => false

/-- The dict assignment `self.urls[url_id] = url_data`: replace the binding
of the record's key if present, otherwise add a new binding. -/
def upsertById (urls : UrlStore) (r : UrlRecord) : UrlStore :=
  if urls.any (fun u => u.rid == r.rid) then
    urls.map (fun u => if u.rid == r.rid then r else u)
  else
    urls ++ [r]

/-- `JSONStorage.add_url`: bind the record under its `_id` key and save;
the save result is ignored, so the in-memory update always survives. -/
def add_url (diskOk : Bool) (urls : UrlStore) (r : UrlRecord) : UrlStore :=
  let urls' := upsertById urls r
  let _ := save_json diskOk
  urls'

/-- `JSONStorage.get_user_urls`: all records whose `user_id` matches. -/
def get_user_urls (urls : UrlStore) (user_id : Int) : List UrlRecord :=
  urls.filter (fun u => u.user_id == user_id)

/-- `JSONStorage.get_url_by_short`: first record with the given short URL. -/
def get_url_by_short (urls : UrlStore) (short_url : String) : Option UrlRecord :=
  urls.find? (fun u => u.short_url == short_url)

/-- `JSONStorage.increment_click_count`: if the key is present, bump that
record's `click_count`, stamp `last_clicked`, save, and return True;
otherwise return False with the store untouched. -/
def increment_click_count (diskOk : Bool) (now : String) (urls : UrlStore)
    (url_id : String) : Bool × UrlStore :=
  if urls.any (fun u => u.rid == url_id) then
    let urls' := urls.map (fun u =>
      if u.rid == url_id then
        { u with click_count := u.click_count + 1, last_clicked := some now }
      else u)
    let _ := save_json diskOk
    (true, urls')
  else
    (false, urls)

/-- Result of `JSONStorage.get_user_stats` (the `urls` copy is dropped). -/
structure UserStats where
  total_urls : Nat
  total_clicks : Nat
deriving Repr, DecidableEq

/-- `JSONStorage.get_user_stats`: aggregate over `get_user_urls`. -/
def get_user_stats (urls : UrlStore) (user_id : Int) : UserStats :=
  let user_urls := get_user_urls urls user_id
  { total_urls := user_urls.length
  , total_clicks := (user_urls.map (fun u => u.click_count)).sum }

/-- The clicks-per-URL average displayed by `show_stats`:
`total_clicks / max(total_urls, 1)`. -/
def avg_clicks (s : UserStats) : Rat :=
  (s.total_clicks : Rat) / ((max s.total_urls 1 : Nat) : Rat)

/-- Outcome of invoking one provider adapter with one URL: the call either
raises an exception or returns a string (which may still fail validation). -/
inductive AdapterOutcome where
  | raise (msg : String)
  | ret (s : String)
deriving Repr, DecidableEq

/-- `GuaranteedShortener._validate_url`: the string starts with an accepted
URL scheme (the `isinstance(url, str)` part is enforced by the type). -/
def validate_url (url : String) : Bool :=
  starts_with url "http://" || starts_with url "https://"

/-- An adapter outcome that the loop in `shorten_url` treats as a failure:
a raised exception, or a returned string that is empty or fails
`_validate_url`. -/
def outcome_fails (o : AdapterOutcome) : Bool :=
  match o with
  | AdapterOutcome.raise _ => true
  | AdapterOutcome.ret s => !(s != "" && validate_url s)

/-- The configured service list of `shorten_url`, in order (names only;
behaviour is injected through `CallEnv.beh`). -/
def services : List String :=
  ["TinyURL Direct", "is.gd Simple", "TinyURL API", "Custom Hash"]

/-- Per-call environment: the network behaviour of each named adapter on a
given URL, the fresh UUIDs and timestamp drawn during the call, and disk
availability for the JSON save. -/
structure CallEnv where
  beh : String → String → AdapterOutcome
  freshId : String
  fallbackTok : String
  fallbackId : String
  now : String
  diskOk : Bool

/-- The mutable state of `GuaranteedShortener` plus the shared `storage`. -/
structure ShortenerState where
  services_used : Nat
  service_stats : List (String × Nat)
  urls : UrlStore
deriving Repr, DecidableEq

/-- `self.service_stats[name] = self.service_stats.get(name, 0) + 1`. -/
def bumpStat (stats : List (String × Nat)) (name : String) : List (String × Nat) :=
  if stats.any (fun p => p.1 == name) then
    stats.map (fun p => if p.1 == name then (p.1, p.2 + 1) else p)
  else
    stats ++ [(name, 1)]

/-- What one `shorten_url` call produces: the returned `url_data` record,
the updated shortener/storage state, the adapters invoked in order, and
the records persisted through `storage.add_url` during the call. -/
structure CallResult where
  record : UrlRecord
  state : ShortenerState
  invoked : List String
  created : List UrlRecord
deriving Repr, DecidableEq

/-- `GuaranteedShortener._create_ultimate_fallback`.  Only the `try` body
is modelled: it consists of local pure computation and `storage.add_url`
(whose save swallows its own errors), so the `except` branch that would
build a `Text Fallback` record is unreachable. -/
def create_ultimate_fallback (env : CallEnv) (original_url : String)
    (user_id : Int) (user_name : String) (st : ShortenerState)
    (invoked : List String) : CallResult :=
  let short_url := "https://short.url/" ++ env.fallbackTok
  let u : UrlRecord :=
    { rid := env.fallbackId
    , user_id := user_id
    , original_url := original_url
    , short_url := short_url
    , service_used := "Guaranteed Fallback"
    , click_count := 0
    , created_at := env.now
    , last_clicked := none
    , user_name := user_name }
  { record := u
  , state := { st with urls := add_url env.diskOk st.urls u }
  , invoked := invoked
  , created := [u] }

/-- The validated-success branch of the loop body in
`GuaranteedShortener.shorten_url`: bump the counters, build `url_data`
for the winning service, persist it, and return it. -/
def accept_success (env : CallEnv) (url : String) (user_id : Int)
    (user_name : String) (name s : String) (st : ShortenerState)
    (invoked : List String) : CallResult :=
  let st' : ShortenerState :=
    { st with services_used := st.services_used + 1
            , service_stats := bumpStat st.service_stats name }
  let u : UrlRecord :=
    { rid := env.freshId
    , user_id := user_id
    , original_url := url
    , short_url := s
    , service_used := name
    , click_count := 0
    , created_at := env.now
    , last_clicked := none
    , user_name := user_name }
  { record := u
  , state := { st' with urls := add_url env.diskOk st'.urls u }
  , invoked := invoked
  , created := [u] }

/-- The `for service in services` loop of `GuaranteedShortener.shorten_url`:
invoke each adapter in order, catch its exception, accept the first
validated success, and fall through to `_create_ultimate_fallback` when
the list is exhausted.  The `Except` layer records that an uncaught
exception would propagate to the caller. -/
def try_services (env : CallEnv) (url : String) (user_id : Int)
    (user_name : String) (names : List String) (st : ShortenerState)
    (invoked : List String) : Except String CallResult :=
  match names with
  | [] => Except.ok (create_ultimate_fallback env url user_id user_name st invoked)
  | name :: rest =>
    let invoked' := invoked ++ [name]
    match env.beh name url with
    | AdapterOutcome.raise _ =>
      try_services env url user_id user_name rest st invoked'
    | AdapterOutcome.ret s =>
      if s != "" && validate_url s then
        Except.ok (accept_success env url user_id user_name name s st invoked')
      else
        try_services env url user_id user_name rest st invoked'

/-- `GuaranteedShortener.shorten_url`. -/
def shorten_url (env : CallEnv) (url : String) (user_id : Int)
    (user_name : String) (st : ShortenerState) : Except String CallResult :=
  try_services env url user_id user_name services st []

/-- A fresh shortener: `services_used = 0`, no stats, empty store. -/
def st0 : ShortenerState :=
  { services_used := 0, service_stats := [], urls := [] }

/-- The parsed top level of one backup document (`backup_data` in
`BackupManager.create_backup` / `restore_backup`; click data does not
appear in the per-user backup). -/
structure BackupData where
  user_id : Int
  backup_created : String
  urls_count : Nat
  urls : List UrlRecord
deriving Repr, DecidableEq

/-- One member of the ZIP archive: its file name and, for `restore_backup`,
the result of `json.loads` on its bytes (`none` when parsing raises). -/
structure ZipEntry where
  name : String
  parsed : Option BackupData
deriving Repr, DecidableEq

/-- The member list of a (well-formed) ZIP container. -/
abbrev ZipArchive := List ZipEntry

/-- `BackupManager.create_backup`: serialize the user's records into one
timestamped `.json` entry of a fresh ZIP archive. -/
def create_backup (now : String) (user_id : Int) (urls : UrlStore) : ZipArchive :=
  let user_urls := get_user_urls urls user_id
  let backup : BackupData :=
    { user_id := user_id
    , backup_created := now
    , urls_count := user_urls.length
    , urls := user_urls }
  [{ name := "url_backup_" ++ toString user_id ++ "_" ++ now ++ ".json"
   , parsed := some backup }]

/-- `BackupManager.restore_backup`: walk the archive members; at the first
name ending in `.json`, parse it (a parse failure raises, is caught by the
outer `except`, and yields False), bind every contained record whose
`user_id` equals the restoring user under its `_id` key, save, and return
True; if no `.json` member exists, return False. -/
def restore_backup (diskOk : Bool) (user_id : Int) (archive : ZipArchive)
    (urls : UrlStore) : Bool × UrlStore :=
  match archive with
  | [] => (false, urls)
  | e :: rest =>
    if ends_with e.name ".json" then
      match e.parsed with
      | none => (false, urls)
      | some backup =>
        let urls' := backup.urls.foldl
          (fun acc u => if u.user_id == user_id then upsertById acc u else acc)
          urls
        let _ := save_json diskOk
        (true, urls')
    else
      restore_backup diskOk user_id rest urls

/-! ### Helper lemmas -/

theorem string_data_append (s t : String) : (s ++ t).data = s.data ++ t.data := by
  cases s; cases t; rfl

theorem isPrefixOf_append_left (l₁ l₂ l₃ : List Char)
    (h : l₁.isPrefixOf l₂ = true) : l₁.isPrefixOf (l₂ ++ l₃) = true := by
  induction l₁ generalizing l₂ with
  | nil => simp [List.isPrefixOf]
  | cons a t ih =>
    cases l₂ with
    | nil => simp [List.isPrefixOf] at h
    | cons b t₂ =>
      simp only [List.isPrefixOf, Bool.and_eq_true] at h
      simp only [List.cons_append, List.isPrefixOf, Bool.and_eq_true]
      exact ⟨h.1, ih t₂ h.2⟩

theorem isPrefixOf_self (l : List Char) : l.isPrefixOf l = true := by
  induction l with
  | nil => rfl
  | cons a t ih => simp [List.isPrefixOf, ih]

/-- Any string obtained by appending `.json` ends in `.json`. -/
theorem ends_with_append (s t : String) : ends_with (s ++ t) t = true := by
  unfold ends_with
  rw [string_data_append, List.reverse_append]
  exact isPrefixOf_append_left _ _ _ (isPrefixOf_self _)

/-- The fallback short URL passes `_validate_url` whatever the token is. -/
theorem validate_fallback (tok : String) :
    validate_url ("https://short.url/" ++ tok) = true := by
  unfold validate_url starts_with
  rw [string_data_append]
  have h : ("https://".data).isPrefixOf ("https://short.url/".data ++ tok.data) = true :=
    isPrefixOf_append_left _ _ _ (by decide)
  simp [h]

/-- A string accepted by `_validate_url` is non-empty. -/
theorem validate_url_ne_empty (s : String) (h : validate_url s = true) : s ≠ "" := by
  intro he
  subst he
  exact absurd h (by decide)

/-- The fallback short URL is non-empty. -/
theorem fallback_short_url_ne_empty (tok : String) :
    ("https://short.url/" ++ tok) ≠ "" :=
  validate_url_ne_empty _ (validate_fallback tok)

/-- Invariant of the adapter loop: whatever the adapter outcomes, the loop
returns `ok` with a record whose short URL is non-empty and validated, and
persists exactly that one record. -/
theorem try_services_spec (env : CallEnv) (url : String) (user_id : Int)
    (user_name : String) :
    ∀ (names : List String) (st : ShortenerState) (invoked : List String),
    ∃ r, try_services env url user_id user_name names st invoked = Except.ok r
      ∧ r.record.short_url ≠ ""
      ∧ validate_url r.record.short_url = true
      ∧ r.created = [r.record] := by
  intro names
  induction names with
  | nil =>
    intro st invoked
    refine ⟨_, rfl, ?_, ?_, rfl⟩
    · exact fallback_short_url_ne_empty env.fallbackTok
    · exact validate_fallback env.fallbackTok
  | cons name rest ih =>
    intro st invoked
    cases hb : env.beh name url with
    | raise m =>
      have heq : try_services env url user_id user_name (name :: rest) st invoked
          = try_services env url user_id user_name rest st (invoked ++ [name]) := by
        simp [try_services, hb]
      rw [heq]
      exact ih st (invoked ++ [name])
    | ret s =>
      by_cases hv : (s != "" && validate_url s) = true
      · have heq : try_services env url user_id user_name (name :: rest) st invoked
            = Except.ok (accept_success env url user_id user_name name s st (invoked ++ [name])) := by
          simp [try_services, hb, hv]
        have hs : s ≠ "" ∧ validate_url s = true := by
          simpa [bne_iff_ne] using hv
        exact ⟨_, heq, hs.1, hs.2, rfl⟩
      · have heq : try_services env url user_id user_name (name :: rest) st invoked
            = try_services env url user_id user_name rest st (invoked ++ [name]) := by
          simp [try_services, hb, hv]
        rw [heq]
        exact ih st (invoked ++ [name])

/-- C1: for every input URL, owner id, and display name — and every
combination of adapter outcomes and disk availability — `shorten_url`
returns a record and raises no error to its caller: every adapter failure
and every storage failure is recovered internally, with
`_create_ultimate_fallback` as the guaranteed last resort. -/
theorem c1_shorten_never_fails (env : CallEnv) (url : String) (user_id : Int)
    (user_name : String) (st : ShortenerState) :
    ∃ r, shorten_url env url user_id user_name st = Except.ok r := by
  obtain ⟨r, hr, -, -, -⟩ :=
    try_services_spec env url user_id user_name services st []
  exact ⟨r, hr⟩

/-- C5: every record produced by a `shorten_url` call — from a provider or
from the fallback path — has a non-empty `short_url` that passes the same
`_validate_url` predicate used to accept a provider result, and exactly
one record is persisted per call. -/
theorem c5_record_validated_unique (env : CallEnv) (url : String)
    (user_id : Int) (user_name : String) (st : ShortenerState) :
    ∃ r, shorten_url env url user_id user_name st = Except.ok r
      ∧ r.record.short_url ≠ ""
      ∧ validate_url r.record.short_url = true
      ∧ r.created = [r.record] :=
  try_services_spec env url user_id user_name services st []

/-- Stepping the loop past one failing adapter only extends the invocation
trace. -/
theorem try_services_step_fail (env : CallEnv) (url : String) (user_id : Int)
    (user_name : String) (name : String) (rest : List String)
    (st : ShortenerState) (invoked : List String)
    (hf : outcome_fails (env.beh name url) = true) :
    try_services env url user_id user_name (name :: rest) st invoked
      = try_services env url user_id user_name rest st (invoked ++ [name]) := by
  cases hb : env.beh name url with
  | raise m => simp [try_services, hb]
  | ret s =>
    have hv : ¬((s != "" && validate_url s) = true) := by
      rw [hb] at hf
      simp only [outcome_fails, Bool.not_eq_true'] at hf
      simp [hf]
    simp [try_services, hb, hv]

/-- If every adapter before `name` fails and `name` returns a validated
string `s`, the loop stops at `name` with the success record. -/
theorem try_services_first_success (env : CallEnv) (url : String)
    (user_id : Int) (user_name : String) (name s : String)
    (post : List String) (hs : env.beh name url = AdapterOutcome.ret s)
    (hv : (s != "" && validate_url s) = true) :
    ∀ (pre : List String) (st : ShortenerState) (invoked : List String),
    (∀ n ∈ pre, outcome_fails (env.beh n url) = true) →
    try_services env url user_id user_name (pre ++ name :: post) st invoked
      = Except.ok
          (accept_success env url user_id user_name name s st
            (invoked ++ (pre ++ [name]))) := by
  intro pre
  induction pre with
  | nil =>
    intro st invoked _
    simp [try_services, hs, hv]
  | cons p pt ih =>
    intro st invoked hfail
    have hp : outcome_fails (env.beh p url) = true := hfail p (by simp)
    rw [List.cons_append, try_services_step_fail env url user_id user_name p
      (pt ++ name :: post) st invoked hp]
    rw [ih st (invoked ++ [p]) (fun n hn => hfail n (by simp [hn]))]
    simp

/-- C6: within one `shorten_url` call, adapters are attempted in the
configured order; the loop stops at the first validated success, the
returned record carries that adapter's name and its returned string, and
no further adapter is invoked. -/
theorem c6_first_validated_success_wins (env : CallEnv) (url : String)
    (user_id : Int) (user_name : String) (st : ShortenerState)
    (pre post : List String) (name s : String)
    (hsv : services = pre ++ name :: post)
    (hpre : ∀ n ∈ pre, outcome_fails (env.beh n url) = true)
    (hs : env.beh name url = AdapterOutcome.ret s)
    (hv : (s != "" && validate_url s) = true) :
    ∃ r, shorten_url env url user_id user_name st = Except.ok r
      ∧ r.record.service_used = name
      ∧ r.record.short_url = s
      ∧ r.invoked = pre ++ [name] := by
  refine ⟨accept_success env url user_id user_name name s st (pre ++ [name]),
    ?_, rfl, rfl, rfl⟩
  unfold shorten_url
  rw [hsv, try_services_first_success env url user_id user_name name s post hs hv
    pre st [] hpre]
  simp

/-- The adapter behaviour of the C6 scenario: the first two services are
down, the third returns a validated short URL. -/
def c6env : CallEnv :=
  { beh := fun name _ =>
      if name == "TinyURL API" then AdapterOutcome.ret "https://x.y/abc"
      else AdapterOutcome.raise "connection refused"
  , freshId := "c6-id"
  , fallbackTok := "c6tok"
  , fallbackId := "c6-fb-id"
  , now := "2026-01-01T00:00:00"
  , diskOk := true }

/-- Witness for C6: the concrete scenario [fail, fail, success] stops at
the third configured adapter, `TinyURL API`, with its returned string. -/
theorem c6_first_validated_success_wins_witness :
    ∃ r, shorten_url c6env "https://example.com/long/path" 9 "User" st0 = Except.ok r
      ∧ r.record.service_used = "TinyURL API"
      ∧ r.record.short_url = "https://x.y/abc"
      ∧ r.invoked = ["TinyURL Direct", "is.gd Simple", "TinyURL API"] := by
  have h := c6_first_validated_success_wins c6env "https://example.com/long/path"
    9 "User" st0 ["TinyURL Direct", "is.gd Simple"] ["Custom Hash"]
    "TinyURL API" "https://x.y/abc" (by decide) (by decide) (by decide) (by decide)
  simpa using h

/-- When every remaining adapter fails, the loop exhausts the list and
lands in `_create_ultimate_fallback`. -/
theorem try_services_all_fail (env : CallEnv) (url : String) (user_id : Int)
    (user_name : String) :
    ∀ (names : List String) (st : ShortenerState) (invoked : List String),
    (∀ n ∈ names, outcome_fails (env.beh n url) = true) →
    try_services env url user_id user_name names st invoked
      = Except.ok
          (create_ultimate_fallback env url user_id user_name st
            (invoked ++ names)) := by
  intro names
  induction names with
  | nil =>
    intro st invoked _
    simp [try_services]
  | cons p pt ih =>
    intro st invoked hfail
    rw [try_services_step_fail env url user_id user_name p pt st invoked
      (hfail p (by simp))]
    rw [ih st (invoked ++ [p]) (fun n hn => hfail n (by simp [hn]))]
    simp

/-- The environment of the C2 counterexample: every adapter raises. -/
def c2env : CallEnv :=
  { beh := fun _ _ => AdapterOutcome.raise "connection refused"
  , freshId := "c2-id"
  , fallbackTok := "c2tok"
  , fallbackId := "c2-fb-id"
  , now := "2026-01-01T00:00:00"
  , diskOk := true }

/-- C2 fails as stated: with every adapter failing, the returned record's
`service_used` (the spec's `provider_name`) is the string
`"Guaranteed Fallback"`, not `"fallback"`. -/
theorem c2_counterexample :
    ((shorten_url c2env "https://example.com/page" 3 "User" st0).toOption.map
        (fun r => r.record.service_used)) = some "Guaranteed Fallback"
    ∧ "Guaranteed Fallback" ≠ "fallback" := by
  constructor
  · rfl
  · decide

/-- C2 amended: when every configured adapter fails, `shorten_url` returns
a record whose `service_used` is `"Guaranteed Fallback"` and whose
`short_url` passes `_validate_url`. -/
theorem c2_all_fail_fallback (env : CallEnv) (url : String) (user_id : Int)
    (user_name : String) (st : ShortenerState)
    (hfail : ∀ n ∈ services, outcome_fails (env.beh n url) = true) :
    ∃ r, shorten_url env url user_id user_name st = Except.ok r
      ∧ r.record.service_used = "Guaranteed Fallback"
      ∧ validate_url r.record.short_url = true := by
  refine ⟨create_ultimate_fallback env url user_id user_name st services,
    ?_, rfl, validate_fallback env.fallbackTok⟩
  unfold shorten_url
  rw [try_services_all_fail env url user_id user_name services st [] hfail]
  simp

/-- Witness for the amended C2 at a concrete all-failing environment. -/
theorem c2_all_fail_fallback_witness :
    ∃ r, shorten_url c2env "https://example.com/page" 3 "User" st0 = Except.ok r
      ∧ r.record.service_used = "Guaranteed Fallback"
      ∧ validate_url r.record.short_url = true :=
  c2_all_fail_fallback c2env "https://example.com/page" 3 "User" st0 (by decide)

/-- The adapters a call invokes depend only on the adapter outcomes for
its URL, never on the shortener's accumulated state (there is no
failed-adapter set in the state to consult). -/
theorem try_services_invoked_state_indep (env : CallEnv) (url : String) :
    ∀ (names : List String) (uid uid' : Int) (unm unm' : String)
      (st st' : ShortenerState) (inv : List String) (r r' : CallResult),
    try_services env url uid unm names st inv = Except.ok r →
    try_services env url uid' unm' names st' inv = Except.ok r' →
    r.invoked = r'.invoked := by
  intro names
  induction names with
  | nil =>
    intro uid uid' unm unm' st st' inv r r' h h'
    simp only [try_services, Except.ok.injEq] at h h'
    subst h
    subst h'
    rfl
  | cons name rest ih =>
    intro uid uid' unm unm' st st' inv r r' h h'
    cases hb : env.beh name url with
    | raise m =>
      have hf : outcome_fails (env.beh name url) = true := by
        rw [hb]
        rfl
      rw [try_services_step_fail _ _ _ _ _ _ _ _ hf] at h h'
      exact ih uid uid' unm unm' st st' (inv ++ [name]) r r' h h'
    | ret s =>
      by_cases hv : (s != "" && validate_url s) = true
      · have heq : ∀ (uidx : Int) (unmx : String) (stx : ShortenerState),
            try_services env url uidx unmx (name :: rest) stx inv
              = Except.ok (accept_success env url uidx unmx name s stx (inv ++ [name])) := by
          intro uidx unmx stx
          simp [try_services, hb, hv]
        rw [heq uid unm st, Except.ok.injEq] at h
        rw [heq uid' unm' st', Except.ok.injEq] at h'
        subst h
        subst h'
        rfl
      · have hcf : (s != "" && validate_url s) = false := by
          revert hv
          cases (s != "" && validate_url s) <;> simp
        have hf : outcome_fails (env.beh name url) = true := by
          rw [hb]
          simp [outcome_fails, hcf]
        rw [try_services_step_fail _ _ _ _ _ _ _ _ hf] at h h'
        exact ih uid uid' unm unm' st st' (inv ++ [name]) r r' h h'

/-- The environment of the C3 refutation: every adapter raises on every
call. -/
def c3env : CallEnv :=
  { beh := fun _ _ => AdapterOutcome.raise "connection refused"
  , freshId := "c3-id"
  , fallbackTok := "c3tok"
  , fallbackId := "c3-fb-id"
  , now := "2026-01-01T00:00:00"
  , diskOk := true }

/-- C3 fails as stated: `TinyURL Direct` fails during the first call, yet
the second call of the same process (starting from the state the first
call produced) invokes it again — nothing records failed adapters. -/
theorem c3_counterexample :
    ∃ r1 r2, shorten_url c3env "https://example.com/a" 1 "User" st0 = Except.ok r1
      ∧ shorten_url c3env "https://example.com/b" 1 "User" r1.state = Except.ok r2
      ∧ outcome_fails (c3env.beh "TinyURL Direct" "https://example.com/a") = true
      ∧ r1.invoked.contains "TinyURL Direct" = true
      ∧ r2.invoked.contains "TinyURL Direct" = true := by
  refine ⟨_, _, rfl, rfl, ?_, ?_, ?_⟩ <;> rfl

/-- C3 amended: no failed-adapter set exists; which adapters a
`shorten_url` call invokes is independent of the shortener state left by
earlier calls, so an adapter that failed before is attempted again. -/
theorem c3_no_failed_set (env : CallEnv) (url : String) (uid uid' : Int)
    (unm unm' : String) (st st' : ShortenerState) (r r' : CallResult)
    (h : shorten_url env url uid unm st = Except.ok r)
    (h' : shorten_url env url uid' unm' st' = Except.ok r') :
    r.invoked = r'.invoked :=
  try_services_invoked_state_indep env url services uid uid' unm unm' st st' [] r r' h h'

/-- A mid-session shortener state for the C3 witness. -/
def c3stB : ShortenerState :=
  { services_used := 7
  , service_stats := [("TinyURL Direct", 7)]
  , urls := [] }

/-- Witness for the amended C3: a fresh state and a mid-session state give
the same invocation trace under the same adapter behaviour. -/
theorem c3_no_failed_set_witness :
    ∃ r r', shorten_url c3env "https://example.com/x" 1 "U" st0 = Except.ok r
      ∧ shorten_url c3env "https://example.com/x" 2 "V" c3stB = Except.ok r'
      ∧ r.invoked = r'.invoked := by
  obtain ⟨r, hr, -, -, -⟩ :=
    try_services_spec c3env "https://example.com/x" 1 "U" services st0 []
  obtain ⟨r', hr', -, -, -⟩ :=
    try_services_spec c3env "https://example.com/x" 2 "V" services c3stB []
  exact ⟨r, r', hr, hr',
    c3_no_failed_set c3env "https://example.com/x" 1 2 "U" "V" st0 c3stB r r' hr hr'⟩

/-- C8: `increment_click_count` returns True exactly when the id is bound;
on a hit it bumps that record's `click_count` by one and stamps
`last_clicked`, leaving every other record untouched; on a miss the store
is unchanged. -/
theorem c8_increment_click_frame (d : Bool) (now target : String) (urls : UrlStore) :
    (increment_click_count d now urls target).1 = urls.any (fun u => u.rid == target)
    ∧ (urls.any (fun u => u.rid == target) = false →
        increment_click_count d now urls target = (false, urls))
    ∧ (increment_click_count d now urls target).2.length = urls.length
    ∧ ∀ (i : Nat) (u : UrlRecord), urls[i]? = some u →
        (u.rid = target →
          (increment_click_count d now urls target).2[i]?
            = some { u with click_count := u.click_count + 1
                          , last_clicked := some now })
        ∧ (u.rid ≠ target →
          (increment_click_count d now urls target).2[i]? = some u) := by
  cases hany : urls.any (fun u => u.rid == target) with
  | false =>
    have heq : increment_click_count d now urls target = (false, urls) := by
      simp [increment_click_count, hany]
    refine ⟨by rw [heq], fun _ => heq, by rw [heq], ?_⟩
    intro i u hu
    constructor
    · intro hrid
      exfalso
      obtain ⟨hlt, hget⟩ := List.getElem?_eq_some.mp hu
      have hmem : u ∈ urls := hget ▸ List.getElem_mem hlt
      have : urls.any (fun u => u.rid == target) = true :=
        List.any_eq_true.mpr ⟨u, hmem, beq_iff_eq.mpr hrid⟩
      rw [hany] at this
      exact Bool.false_ne_true this
    · intro _
      rw [heq, hu]
  | true =>
    have heq : increment_click_count d now urls target
        = (true, urls.map (fun u =>
            if u.rid == target then
              { u with click_count := u.click_count + 1, last_clicked := some now }
            else u)) := by
      simp [increment_click_count, hany]
    refine ⟨by rw [heq], fun hc => Bool.noConfusion hc, ?_, ?_⟩
    · rw [heq]
      exact List.length_map urls _
    · intro i u hu
      constructor
      · intro hrid
        rw [heq]
        simp only [List.getElem?_map, hu, Option.map_some']
        rw [if_pos (beq_iff_eq.mpr hrid)]
      · intro hrid
        rw [heq]
        simp only [List.getElem?_map, hu, Option.map_some']
        rw [if_neg (by simpa [beq_iff_eq] using hrid)]

/-- A concrete two-record store for the C8 witness. -/
def c8urls : UrlStore :=
  [ { rid := "a", user_id := 1, original_url := "https://long.example/1"
    , short_url := "https://t.ly/1", service_used := "TinyURL Direct"
    , click_count := 3, created_at := "t0", last_clicked := none
    , user_name := "A" }
  , { rid := "b", user_id := 2, original_url := "https://long.example/2"
    , short_url := "https://t.ly/2", service_used := "is.gd Simple"
    , click_count := 5, created_at := "t1", last_clicked := some "t2"
    , user_name := "B" } ]

/-- Witness for C8: incrementing record `a` returns True, bumps only `a`,
leaves `b` untouched; incrementing a missing id returns False with the
store unchanged. -/
theorem c8_increment_click_frame_witness :
    (increment_click_count true "t3" c8urls "a").1 = true
    ∧ (increment_click_count true "t3" c8urls "a").2[0]?
        = some { rid := "a", user_id := 1, original_url := "https://long.example/1"
               , short_url := "https://t.ly/1", service_used := "TinyURL Direct"
               , click_count := 4, created_at := "t0", last_clicked := some "t3"
               , user_name := "A" }
    ∧ (increment_click_count true "t3" c8urls "a").2[1]?
        = some { rid := "b", user_id := 2, original_url := "https://long.example/2"
               , short_url := "https://t.ly/2", service_used := "is.gd Simple"
               , click_count := 5, created_at := "t1", last_clicked := some "t2"
               , user_name := "B" }
    ∧ increment_click_count true "t3" c8urls "missing" = (false, c8urls) := by
  refine ⟨?_, ?_, ?_, ?_⟩
  · rw [(c8_increment_click_frame true "t3" "a" c8urls).1]
    decide
  · exact ((c8_increment_click_frame true "t3" "a" c8urls).2.2.2 0 _ rfl).1 rfl
  · exact ((c8_increment_click_frame true "t3" "a" c8urls).2.2.2 1 _ rfl).2 (by decide)
  · exact (c8_increment_click_frame true "t3" "missing" c8urls).2.1 (by decide)

/-- C9: for an owner with zero stored records, `get_user_stats` reports
zero URLs and zero clicks, and the clicks-per-URL average shown by
`show_stats` is 0 with a denominator guarded away from zero by
`max(total_urls, 1)`. -/
theorem c9_zero_records_stats (urls : UrlStore) (user_id : Int)
    (h : get_user_urls urls user_id = []) :
    get_user_stats urls user_id = { total_urls := 0, total_clicks := 0 }
    ∧ avg_clicks (get_user_stats urls user_id) = 0
    ∧ ((max (get_user_stats urls user_id).total_urls 1 : Nat) : Rat) ≠ 0 := by
  have hs : get_user_stats urls user_id = { total_urls := 0, total_clicks := 0 } := by
    simp [get_user_stats, h]
  refine ⟨hs, ?_, ?_⟩
  · rw [hs]
    simp [avg_clicks]
  · rw [hs]
    simp

/-- A store holding only another user's record, for the C9 witness. -/
def c9urls : UrlStore :=
  [ { rid := "z", user_id := 8, original_url := "https://long.example/z"
    , short_url := "https://t.ly/z", service_used := "TinyURL API"
    , click_count := 2, created_at := "t0", last_clicked := none
    , user_name := "Z" } ]

/-- Witness for C9 at a concrete owner with no records. -/
theorem c9_zero_records_stats_witness :
    get_user_stats c9urls 7 = { total_urls := 0, total_clicks := 0 }
    ∧ avg_clicks (get_user_stats c9urls 7) = 0
    ∧ ((max (get_user_stats c9urls 7).total_urls 1 : Nat) : Rat) ≠ 0 :=
  c9_zero_records_stats c9urls 7 (by decide)

/-- Mapping a function that fixes every member of a list is the identity. -/
theorem map_self_of_eq (l : List UrlRecord) (f : UrlRecord → UrlRecord)
    (h : ∀ x ∈ l, f x = x) : l.map f = l := by
  induction l with
  | nil => rfl
  | cons a t ih =>
    rw [List.map_cons, h a (by simp), ih (fun x hx => h x (by simp [hx]))]

/-- Re-binding a record that is already in the store (under unique ids)
leaves the store unchanged. -/
theorem upsertById_mem_nodup (urls : UrlStore) (u : UrlRecord) (hmem : u ∈ urls)
    (hnd : (urls.map (fun v => v.rid)).Nodup) : upsertById urls u = urls := by
  have hany : urls.any (fun v => v.rid == u.rid) = true :=
    List.any_eq_true.mpr ⟨u, hmem, by simp⟩
  unfold upsertById
  rw [if_pos hany]
  apply map_self_of_eq
  intro v hv
  by_cases hb : (v.rid == u.rid) = true
  · have hvu : v = u := List.inj_on_of_nodup_map hnd hv hmem (beq_iff_eq.mp hb)
    rw [if_pos hb, hvu]
  · rw [if_neg hb]

/-- The restore fold is a no-op when every folded record already lives in
the (unique-id) store. -/
theorem foldl_restore_fixed (uid : Int) (urls : UrlStore)
    (hnd : (urls.map (fun v => v.rid)).Nodup) :
    ∀ l : List UrlRecord, (∀ u ∈ l, u ∈ urls) →
    l.foldl (fun acc u => if u.user_id == uid then upsertById acc u else acc) urls
      = urls := by
  intro l
  induction l with
  | nil => intro _; rfl
  | cons a t ih =>
    intro h
    rw [List.foldl_cons]
    have hstep : (if a.user_id == uid then upsertById urls a else urls) = urls := by
      by_cases hc : (a.user_id == uid) = true
      · rw [if_pos hc, upsertById_mem_nodup urls a (h a (by simp)) hnd]
      · rw [if_neg hc]
    rw [hstep]
    exact ih (fun u hu => h u (by simp [hu]))

/-- C7: restoring a user's own freshly exported snapshot is a no-op — the
store after `restore_backup(uid, create_backup(uid))` equals the store
before it, so `get_user_urls uid` is unchanged (hypothesis: record ids in
the store are unique, as Python dict keys are). -/
theorem c7_export_import_round_trip (d : Bool) (nowts : String) (uid : Int)
    (urls : UrlStore) (hnd : (urls.map (fun v => v.rid)).Nodup) :
    restore_backup d uid (create_backup nowts uid urls) urls = (true, urls)
    ∧ get_user_urls ((restore_backup d uid (create_backup nowts uid urls) urls).2) uid
        = get_user_urls urls uid := by
  have hname :
      ends_with ("url_backup_" ++ toString uid ++ "_" ++ nowts ++ ".json") ".json"
        = true := ends_with_append _ _
  have heq : restore_backup d uid (create_backup nowts uid urls) urls
      = (true, (get_user_urls urls uid).foldl
          (fun acc u => if u.user_id == uid then upsertById acc u else acc) urls) := by
    simp [restore_backup, create_backup, hname]
  have hmem : ∀ u ∈ get_user_urls urls uid, u ∈ urls := by
    intro u hu
    rw [get_user_urls] at hu
    exact (List.mem_filter.mp hu).1
  have hfold := foldl_restore_fixed uid urls hnd (get_user_urls urls uid) hmem
  constructor
  · rw [heq, hfold]
  · rw [heq, hfold]

/-- A two-user store with distinct record ids for the C7 witness. -/
def c7urls : UrlStore :=
  [ { rid := "p", user_id := 5, original_url := "https://long.example/p"
    , short_url := "https://t.ly/p", service_used := "TinyURL Direct"
    , click_count := 1, created_at := "t0", last_clicked := none
    , user_name := "P" }
  , { rid := "q", user_id := 5, original_url := "https://long.example/q"
    , short_url := "https://t.ly/q", service_used := "Guaranteed Fallback"
    , click_count := 0, created_at := "t1", last_clicked := none
    , user_name := "P" }
  , { rid := "r", user_id := 6, original_url := "https://long.example/r"
    , short_url := "https://t.ly/r", service_used := "is.gd Simple"
    , click_count := 2, created_at := "t2", last_clicked := some "t3"
    , user_name := "R" } ]

/-- Witness for C7 at a concrete store. -/
theorem c7_export_import_round_trip_witness :
    restore_backup true 5 (create_backup "20260101T0000" 5 c7urls) c7urls
      = (true, c7urls)
    ∧ get_user_urls
        ((restore_backup true 5 (create_backup "20260101T0000" 5 c7urls) c7urls).2) 5
        = get_user_urls c7urls 5 :=
  c7_export_import_round_trip true "20260101T0000" 5 c7urls (by decide)

/-- Folding the restore's per-record conditional equals folding the plain
upsert over the records that pass the owner check. -/
theorem foldl_restore_eq_filter (uid : Int) :
    ∀ (l : List UrlRecord) (acc : UrlStore),
    l.foldl (fun acc u => if u.user_id == uid then upsertById acc u else acc) acc
      = (l.filter (fun u => u.user_id == uid)).foldl
          (fun acc u => upsertById acc u) acc := by
  intro l
  induction l with
  | nil => intro acc; rfl
  | cons a t ih =>
    intro acc
    rw [List.foldl_cons]
    by_cases hc : (a.user_id == uid) = true
    · have hfc : (a :: t).filter (fun u => u.user_id == uid)
          = a :: t.filter (fun u => u.user_id == uid) :=
        List.filter_cons_of_pos hc
      rw [if_pos hc, hfc, List.foldl_cons]
      exact ih (upsertById acc a)
    · have hfc : (a :: t).filter (fun u => u.user_id == uid)
          = t.filter (fun u => u.user_id == uid) :=
        List.filter_cons_of_neg hc
      rw [if_neg hc, hfc]
      exact ih acc

/-- A record of user 42 as contained in the C4 snapshot. -/
def c4rec : UrlRecord :=
  { rid := "r42", user_id := 42, original_url := "https://long.example/42"
  , short_url := "https://t.ly/42", service_used := "TinyURL Direct"
  , click_count := 9, created_at := "t0", last_clicked := none
  , user_name := "FortyTwo" }

/-- The C4 snapshot document: one record owned by user 42. -/
def c4backup : BackupData :=
  { user_id := 42, backup_created := "t", urls_count := 1, urls := [c4rec] }

/-- The C4 snapshot archive. -/
def c4arch : ZipArchive :=
  [{ name := "b.json", parsed := some c4backup }]

/-- C4 fails as stated: restoring a snapshot whose only record carries
`user_id = 42` into a session for user 99 stores nothing at all — the
record is skipped, not rewritten to owner 99. -/
theorem c4_counterexample :
    restore_backup true 99 c4arch [] = (true, [])
    ∧ c4backup.urls.length = 1 := by
  constructor
  · rfl
  · rfl

/-- C4 amended: `restore_backup` upserts (keyed by record id) exactly the
snapshot records whose `user_id` already equals the restoring caller's,
without rewriting any field; records carrying other owner ids are
ignored, and if none matches the store is unchanged. -/
theorem c4_restore_keeps_owner_filter (d : Bool) (uid : Int) (nm : String)
    (b : BackupData) (urls : UrlStore)
    (hnm : ends_with nm ".json" = true) :
    restore_backup d uid [{ name := nm, parsed := some b }] urls
      = (true, (b.urls.filter (fun u => u.user_id == uid)).foldl
          (fun acc u => upsertById acc u) urls)
    ∧ ((b.urls.all (fun u => !(u.user_id == uid))) = true →
        restore_backup d uid [{ name := nm, parsed := some b }] urls
          = (true, urls)) := by
  have heq : restore_backup d uid [{ name := nm, parsed := some b }] urls
      = (true, b.urls.foldl
          (fun acc u => if u.user_id == uid then upsertById acc u else acc) urls) := by
    simp [restore_backup, hnm]
  constructor
  · rw [heq, foldl_restore_eq_filter]
  · intro hall
    have hnil : b.urls.filter (fun u => u.user_id == uid) = [] := by
      rw [List.filter_eq_nil_iff]
      intro a ha
      have := List.all_eq_true.mp hall a ha
      simp only [Bool.not_eq_true'] at this
      simp [this]
    rw [heq, foldl_restore_eq_filter, hnil]
    rfl

/-- Witness for the amended C4: restoring the 42-owned snapshot as user 99
leaves the (empty) store unchanged, and the filtered-upsert equation holds. -/
theorem c4_restore_keeps_owner_filter_witness :
    restore_backup true 99 [{ name := "w.json", parsed := some c4backup }] []
      = (true, (c4backup.urls.filter (fun u => u.user_id == 99)).foldl
          (fun acc u => upsertById acc u) [])
    ∧ restore_backup true 99 [{ name := "w.json", parsed := some c4backup }] []
      = (true, []) := by
  have h := c4_restore_keeps_owner_filter true 99 "w.json" c4backup [] (by decide)
  exact ⟨h.1, h.2 (by decide)⟩

/-- The restore fold leaves the accumulator alone when no record passes
the owner check. -/
theorem foldl_restore_skip_all (uid : Int) :
    ∀ (l : List UrlRecord) (acc : UrlStore),
    (∀ u ∈ l, (u.user_id == uid) = false) →
    l.foldl (fun acc u => if u.user_id == uid then upsertById acc u else acc) acc
      = acc := by
  intro l
  induction l with
  | nil => intro acc _; rfl
  | cons a t ih =>
    intro acc h
    rw [List.foldl_cons, if_neg (by simp [h a (by simp)])]
    exact ih acc (fun u hu => h u (by simp [hu]))

/-- C10 amended: `restore_backup` is decided by the first member whose
name ends in `.json` — True exactly when that member's content parses
(even if no contained record belongs to the caller, in which case nothing
is written), False when it fails to parse or when no `.json` member
exists. -/
theorem c10_first_json_member_decides (d : Bool) (uid : Int) (urls : UrlStore) :
    ∀ arch : ZipArchive,
    (arch.find? (fun e => ends_with e.name ".json") = none →
        restore_backup d uid arch urls = (false, urls))
    ∧ (∀ e, arch.find? (fun e => ends_with e.name ".json") = some e →
        (e.parsed = none → restore_backup d uid arch urls = (false, urls))
        ∧ (∀ b, e.parsed = some b →
            (restore_backup d uid arch urls).1 = true
            ∧ ((b.urls.all (fun u => !(u.user_id == uid))) = true →
                (restore_backup d uid arch urls).2 = urls))) := by
  intro arch
  induction arch with
  | nil =>
    refine ⟨fun _ => rfl, ?_⟩
    intro e he
    simp at he
  | cons a rest ih =>
    by_cases ha : ends_with a.name ".json" = true
    · have hfind : (a :: rest).find? (fun e => ends_with e.name ".json") = some a :=
        List.find?_cons_of_pos rest ha
      constructor
      · intro h
        rw [hfind] at h
        exact absurd h (by simp)
      · intro e he
        rw [hfind, Option.some.injEq] at he
        subst he
        constructor
        · intro hp
          simp [restore_backup, ha, hp]
        · intro b hb
          have heq : restore_backup d uid (a :: rest) urls
              = (true, b.urls.foldl
                  (fun acc u => if u.user_id == uid then upsertById acc u else acc)
                  urls) := by
            simp [restore_backup, ha, hb]
          constructor
          · rw [heq]
          · intro hall
            rw [heq]
            exact foldl_restore_skip_all uid b.urls urls
              (fun u hu => by simpa using List.all_eq_true.mp hall u hu)
    · have hfind : (a :: rest).find? (fun e => ends_with e.name ".json")
          = rest.find? (fun e => ends_with e.name ".json") :=
        List.find?_cons_of_neg rest ha
      have heq : restore_backup d uid (a :: rest) urls
          = restore_backup d uid rest urls := by
        simp [restore_backup, ha]
      rw [hfind, heq]
      exact ih

/-- A parseable snapshot document with no records, for C10. -/
def c10backup : BackupData :=
  { user_id := 7, backup_created := "t", urls_count := 0, urls := [] }

/-- The C10 counterexample archive: the first `.json` member is
unparseable, a later `.json` member parses fine. -/
def c10arch : ZipArchive :=
  [ { name := "bad.json", parsed := none }
  , { name := "good.json", parsed := some c10backup } ]

/-- C10 fails as stated: the archive contains a member whose name ends in
`.json` and whose content parses, yet `restore_backup` returns False,
because the parse error on the earlier `.json` member aborts the whole
restore. -/
theorem c10_counterexample :
    (restore_backup true 7 c10arch []).1 = false
    ∧ (c10arch.any (fun e => ends_with e.name ".json" && e.parsed.isSome)) = true := by
  constructor
  · rfl
  · rfl

/-- A `.json`-free archive for the C10 witness. -/
def c10warchA : ZipArchive :=
  [{ name := "readme.txt", parsed := none }]

/-- A single parseable `.json` archive (no records of user 7's session is
irrelevant: the document is simply empty) for the C10 witness. -/
def c10warchB : ZipArchive :=
  [{ name := "x.json", parsed := some c10backup }]

/-- Witness for the amended C10: no `.json` member gives False; a
parseable `.json` member with zero matching records gives True and writes
nothing. -/
theorem c10_first_json_member_decides_witness :
    restore_backup true 7 c10warchA [] = (false, [])
    ∧ (restore_backup true 7 c10warchB []).1 = true
    ∧ (restore_backup true 7 c10warchB []).2 = [] := by
  refine ⟨?_, ?_, ?_⟩
  · exact (c10_first_json_member_decides true 7 [] c10warchA).1 (by decide)
  · exact (((c10_first_json_member_decides true 7 [] c10warchB).2
      { name := "x.json", parsed := some c10backup } (by decide)).2 c10backup rfl).1
  · exact (((c10_first_json_member_decides true 7 [] c10warchB).2
      { name := "x.json", parsed := some c10backup } (by decide)).2 c10backup rfl).2
      (by decide)
